import Mathlib

/-!
# A verification model of the jellyfish in-memory store

This file gives a shallow embedding, in Lean 4, of the storage layer
(`internal/store/store.go`), the append-only persistence log
(`internal/aof/aof.go`) and the command handler with its per-connection
transaction coordinator (`internal/handler/handler.go`) of the jellyfish
data store, together with theorems settling the specification claims
about these components.

Modelling conventions:
* The Go `map[string]Item` keyspace is embedded as an association list
  `List (String × Item)`; Go map reads/writes/deletes become `lookupA`,
  `insertA`, `eraseA`.  Go map iteration is modelled by list order.
* `time.Time` instants are embedded as `Int` nanoseconds; the zero
  `time.Time` sentinel ("no expiration") is `Option.none`.
  `time.Now().After(t)` is the strict comparison `t < now`.
* `float32` payloads are embedded as exact rationals `ℚ`; the `float64`
  cosine distance is a real number (the claims settled here depend only
  on the control flow around the distance values, not on rounding).
* Methods that mutate the Go receiver become state-passing functions
  returning the updated store; a method that does not mutate returns the
  store unchanged.
* A Go runtime panic is embedded as `Option.none` of the whole
  invocation; an AOF `Write` I/O failure is modelled by the `fails` flag
  of the embedded log state.
-/

set_option autoImplicit false

namespace JF

/-- One decoded RESP value (`resp.Value` in `internal/resp/types.go`). -/
inductive RValue : Type where
  | mk (typ : String) (str : String) (num : Int) (bulk : String) (arr : List RValue)

/-- The `Type` field of a `resp.Value`. -/
def RValue.typ : RValue → String
  | .mk t _ _ _ _ => t

/-- The `Str` field of a `resp.Value`. -/
def RValue.str : RValue → String
  | .mk _ s _ _ _ => s

/-- The `Num` field of a `resp.Value`. -/
def RValue.num : RValue → Int
  | .mk _ _ n _ _ => n

/-- The `Bulk` field of a `resp.Value`. -/
def RValue.bulk : RValue → String
  | .mk _ _ _ b _ => b

/-- The `Array` field of a `resp.Value`. -/
def RValue.arr : RValue → List RValue
  | .mk _ _ _ _ a => a

/-- `resp.Value{Type: "string", Str: s}`. -/
def strV (s : String) : RValue := .mk "string" s 0 "" []

/-- `resp.Value{Type: "error", Str: s}`. -/
def errV (s : String) : RValue := .mk "error" s 0 "" []

/-- `resp.Value{Type: "integer", Num: n}`. -/
def intV (n : Int) : RValue := .mk "integer" "" n "" []

/-- `resp.Value{Type: "bulk", Bulk: b}`. -/
def bulkV (b : String) : RValue := .mk "bulk" "" 0 b []

/-- `resp.Value{Type: "null"}`. -/
def nullV : RValue := .mk "null" "" 0 "" []

/-- `resp.Value{Type: "array", Array: l}`. -/
def arrV (l : List RValue) : RValue := .mk "array" "" 0 "" l

/-! ## Association-list primitives standing in for Go maps -/

/-- Go map read `m[k]` (with the `ok` flag as `Option`). -/
def lookupA {α : Type} : List (String × α) → String → Option α
  | [], _ => none
  | (k', v) :: t, k => if k' = k then some v else lookupA t k

/-- Go map write `m[k] = v`: replace the binding of `k`, or append it. -/
def insertA {α : Type} : List (String × α) → String → α → List (String × α)
  | [], k, v => [(k, v)]
  | (k', v') :: t, k, v =>
    if k' = k then (k, v) :: t else (k', v') :: insertA t k v

/-- Go map delete `delete(m, k)`. -/
def eraseA {α : Type} : List (String × α) → String → List (String × α)
  | [], _ => []
  | (k', v') :: t, k => if k' = k then t else (k', v') :: eraseA t k

/-! ## The store (`internal/store/store.go`) -/

/-- `store.TypeString`. -/
def TypeString : Nat := 0

/-- `store.TypeVector`. -/
def TypeVector : Nat := 1

/-- `store.TypeHash`. -/
def TypeHash : Nat := 2

/-- One keyspace slot (`store.Item`): a kind tag plus the payload slots
and the optional absolute expiry instant (`none` is the zero `time.Time`,
meaning no expiration). -/
structure Item : Type where
  typ : Nat
  strVal : String
  vecVal : List ℚ
  hashVal : List (String × String)
  expiresAt : Option Int
deriving DecidableEq

/-- `Item{Type: TypeString, StrVal: s}`. -/
def scalarItem (s : String) : Item := ⟨TypeString, s, [], [], none⟩

/-- `Item{Type: TypeVector, VecVal: v}`. -/
def vectorItem (v : List ℚ) : Item := ⟨TypeVector, "", v, [], none⟩

/-- `Item{Type: TypeHash, HashVal: h}`. -/
def hashItem (h : List (String × String)) : Item := ⟨TypeHash, "", [], h, none⟩

/-- The keyspace: the `data map[string]Item` of `store.Store`. -/
abbrev Store : Type := List (String × Item)

/-- Nanoseconds per second (`time.Second` as a `time.Duration`). -/
def nsPerSec : Int := 1000000000

/-- The lazy-expiration test performed by every accessor:
`!item.ExpiresAt.IsZero() && time.Now().After(item.ExpiresAt)`. -/
def expiredAt (it : Item) (now : Int) : Bool :=
  match it.expiresAt with
  | none => false
  | some t => decide (t < now)

/-- `Store.SetWithoutLock`. -/
def SetWithoutLock (d : Store) (k v : String) : Store :=
  insertA d k (scalarItem v)

/-- `Store.SetVectorWithoutLock`. -/
def SetVectorWithoutLock (d : Store) (k : String) (vec : List ℚ) : Store :=
  insertA d k (vectorItem vec)

/-- `Store.GetWithoutLock`: scalar read with lazy expiration; kind
mismatch is reported as not-found. -/
def GetWithoutLock (d : Store) (now : Int) (k : String) :
    (String × Bool) × Store :=
  match lookupA d k with
  | none => (("", false), d)
  | some it =>
    if expiredAt it now then (("", false), eraseA d k)
    else if it.typ ≠ TypeString then (("", false), d)
    else ((it.strVal, true), d)

/-- `Store.GetVectorWithoutLock`. -/
def GetVectorWithoutLock (d : Store) (now : Int) (k : String) :
    (List ℚ × Bool) × Store :=
  match lookupA d k with
  | none => (([], false), d)
  | some it =>
    if expiredAt it now then (([], false), eraseA d k)
    else if it.typ ≠ TypeVector then (([], false), d)
    else ((it.vecVal, true), d)

/-- `Store.DelWithoutLock`: removes regardless of expiry state. -/
def DelWithoutLock (d : Store) (k : String) : Bool × Store :=
  match lookupA d k with
  | none => (false, d)
  | some _ => (true, eraseA d k)

/-- `Store.ExpireWithoutLock`: sets `ExpiresAt = now + seconds`. -/
def ExpireWithoutLock (d : Store) (now : Int) (k : String) (seconds : Int) :
    Bool × Store :=
  match lookupA d k with
  | none => (false, d)
  | some it =>
    if expiredAt it now then (false, eraseA d k)
    else (true, insertA d k
      ⟨it.typ, it.strVal, it.vecVal, it.hashVal, some (now + seconds * nsPerSec)⟩)

/-- `Store.TTLWithoutLock`. -/
def TTLWithoutLock (d : Store) (now : Int) (k : String) : Int × Store :=
  match lookupA d k with
  | none => (-2, d)
  | some it =>
    if expiredAt it now then (-2, eraseA d k)
    else
      match it.expiresAt with
      | none => (-1, d)
      | some t => ((t - now) / nsPerSec, d)

/-- The `for f, v := range fields` loop body of `Store.HSetWithoutLock`:
counts fields newly added and writes every field. -/
def hashInsertAll :
    List (String × String) → List (String × String) →
    Int × List (String × String)
  | h, [] => (0, h)
  | h, (f, v) :: rest =>
    let add : Int := match lookupA h f with | some _ => 0 | none => 1
    let p := hashInsertAll (insertA h f v) rest
    (add + p.1, p.2)

/-- `Store.HSetWithoutLock`: number of new fields added, `-1` on
WRONGTYPE; a lazily-expired key is deleted first and treated as absent. -/
def HSetWithoutLock (d : Store) (now : Int) (k : String)
    (fields : List (String × String)) : Int × Store :=
  match lookupA d k with
  | some it =>
    if expiredAt it now then
      let p := hashInsertAll [] fields
      (p.1, insertA (eraseA d k) k ⟨TypeHash, "", [], p.2, none⟩)
    else if it.typ ≠ TypeHash then (-1, d)
    else
      let p := hashInsertAll it.hashVal fields
      (p.1, insertA d k ⟨it.typ, it.strVal, it.vecVal, p.2, it.expiresAt⟩)
  | none =>
    let p := hashInsertAll [] fields
    (p.1, insertA d k ⟨TypeHash, "", [], p.2, none⟩)

/-- `Store.HGetWithoutLock`: `(value, found, typeOk)`. -/
def HGetWithoutLock (d : Store) (now : Int) (k f : String) :
    (String × Bool × Bool) × Store :=
  match lookupA d k with
  | none => (("", false, true), d)
  | some it =>
    if expiredAt it now then (("", false, true), eraseA d k)
    else if it.typ ≠ TypeHash then (("", false, false), d)
    else
      match lookupA it.hashVal f with
      | some v => ((v, true, true), d)
      | none => (("", false, true), d)

/-- The `for _, f := range fields` loop body of `Store.HDelWithoutLock`. -/
def hashDeleteAll :
    List (String × String) → List String → Int × List (String × String)
  | h, [] => (0, h)
  | h, f :: rest =>
    match lookupA h f with
    | some _ =>
      let p := hashDeleteAll (eraseA h f) rest
      (1 + p.1, p.2)
    | none => hashDeleteAll h rest

/-- `Store.HDelWithoutLock`: number of fields removed, `-1` on WRONGTYPE,
`0` when the key is absent or lazily expired. -/
def HDelWithoutLock (d : Store) (now : Int) (k : String)
    (fields : List String) : Int × Store :=
  match lookupA d k with
  | none => (0, d)
  | some it =>
    if expiredAt it now then (0, eraseA d k)
    else if it.typ ≠ TypeHash then (-1, d)
    else
      let p := hashDeleteAll it.hashVal fields
      (p.1, insertA d k ⟨it.typ, it.strVal, it.vecVal, p.2, it.expiresAt⟩)

/-- `Store.HGetAllWithoutLock`: `(map, typeOk)`, `none` standing for the
`nil` map returned for an absent key. -/
def HGetAllWithoutLock (d : Store) (now : Int) (k : String) :
    (Option (List (String × String)) × Bool) × Store :=
  match lookupA d k with
  | none => ((none, true), d)
  | some it =>
    if expiredAt it now then ((none, true), eraseA d k)
    else if it.typ ≠ TypeHash then ((none, false), d)
    else ((some it.hashVal, true), d)

/-- `Store.HExistsWithoutLock`: `(exists, typeOk)`. -/
def HExistsWithoutLock (d : Store) (now : Int) (k f : String) :
    (Bool × Bool) × Store :=
  match lookupA d k with
  | none => ((false, true), d)
  | some it =>
    if expiredAt it now then ((false, true), eraseA d k)
    else if it.typ ≠ TypeHash then ((false, false), d)
    else (((lookupA it.hashVal f).isSome, true), d)

/-- `Store.HLenWithoutLock`: field count, `-1` on WRONGTYPE. -/
def HLenWithoutLock (d : Store) (now : Int) (k : String) : Int × Store :=
  match lookupA d k with
  | none => (0, d)
  | some it =>
    if expiredAt it now then (0, eraseA d k)
    else if it.typ ≠ TypeHash then (-1, d)
    else ((it.hashVal.length : Int), d)

/-- `Store.GetAllVectors`: the point-in-time snapshot of all non-expired
vector entries; expired entries are skipped, never deleted, so the store
comes back unchanged. -/
def GetAllVectors (d : Store) (now : Int) :
    List (String × List ℚ) × Store :=
  (d.filterMap fun p =>
    if expiredAt p.2 now then none
    else if p.2.typ = TypeVector then some (p.1, p.2.vecVal)
    else none, d)

/-! ## Similarity search (`cosineDistance` and the VSEARCH case body) -/

/-- `cosineDistance(a, b)` from `internal/handler/handler.go`:
`1 − dot/(‖a‖·‖b‖)`, and the maximum distance `1.0` if either magnitude
is zero.  The accumulation loop runs over the indices of `a`; it is only
invoked on vectors of equal length, where the `zip` below coincides with
it. -/
noncomputable def cosineDistance (a b : List ℚ) : ℝ :=
  let dot : ℚ := ((a.zip b).map fun p => p.1 * p.2).sum
  let magA : ℚ := ((a.zip b).map fun p => p.1 * p.1).sum
  let magB : ℚ := ((a.zip b).map fun p => p.2 * p.2).sum
  if magA = 0 ∨ magB = 0 then 1
  else 1 - (dot : ℝ) / (Real.sqrt (magA : ℝ) * Real.sqrt (magB : ℝ))

/-- The comparator of the `sort.Slice` call in the VSEARCH case:
order scored candidates by distance. -/
def distLE (a b : String × ℝ) : Prop := a.2 ≤ b.2

noncomputable instance : DecidableRel distLE :=
  fun a b => Real.decidableLE a.2 b.2

instance : IsTotal (String × ℝ) distLE := ⟨fun a b => le_total a.2 b.2⟩

instance : IsTrans (String × ℝ) distLE := ⟨fun _ _ _ => le_trans⟩

/-- `sort.Slice(results, by ascending score)`. -/
noncomputable def sortByDist (l : List (String × ℝ)) : List (String × ℝ) :=
  List.insertionSort distLE l

/-- The body of the `VSEARCH` case of `Handler.Execute`, after the wire
arguments have been decoded into the query vector and `K`: snapshot the
vector entries, drop dimension mismatches, score by cosine distance,
sort ascending, clamp `K` down to the candidate count and emit the first
`K` keys.  `none` is the runtime panic raised by
`make([]resp.Value, k)` when `k` is still negative after clamping. -/
noncomputable def vsearchExec (q : List ℚ) (k : Int) (d : Store) (now : Int) :
    Option (List String) :=
  let candidates := (GetAllVectors d now).1
  let results := candidates.filterMap fun p =>
    if p.2.length = q.length then some (p.1, cosineDistance q p.2) else none
  let sorted := sortByDist results
  let k2 : Int := if k > (sorted.length : Int) then (sorted.length : Int) else k
  if k2 < 0 then none
  else some ((sorted.take k2.toNat).map Prod.fst)

/-- The number of candidates eligible for a query: dimension-matching
entries of the non-expired vector snapshot. -/
def eligibleCount (q : List ℚ) (d : Store) (now : Int) : Nat :=
  ((GetAllVectors d now).1.filter fun p => p.2.length = q.length).length

/-! ## The persistence log (`internal/aof/aof.go`) -/

/-- The append-only log: its already-appended records plus a flag
modelling whether the underlying file writes fail. -/
structure AofSt : Type where
  fails : Bool
  records : List RValue

/-- `Handler.writeAOF`: a `nil` log is a silent no-op success; otherwise
`Aof.Write` appends the record or reports an I/O error (`none`). -/
def writeAOF (v : RValue) (a : Option AofSt) : Option (Option AofSt) :=
  match a with
  | none => some none
  | some s => if s.fails then none else some (some ⟨s.fails, s.records ++ [v]⟩)

/-! ## The handler (`internal/handler/handler.go`) -/

/-- The handler-visible shared state: the keyspace plus the (possibly
`nil`) persistence log. -/
structure HState : Type where
  store : Store
  aof : Option AofSt

/-- Per-connection transaction state (`handler.session`). -/
structure Session : Type where
  inTx : Bool
  txQueue : List RValue

/-- `strings.ToUpper` (character by character, so that it evaluates
inside the kernel). -/
def toUpperStr (s : String) : String := String.mk (s.data.map Char.toUpper)

/-- `strings.ToUpper(value.Array[0].Bulk)`: the dispatched command name.
(`Handle` only dispatches non-empty arrays, so the default head is
unreachable.) -/
def cmdOf (v : RValue) : String := toUpperStr (v.arr.headD nullV).bulk

/-- An unsigned decimal digit run. -/
def parseNatD (cs : List Char) : Option Nat :=
  match cs with
  | [] => none
  | _ =>
    if cs.all (·.isDigit) then
      some (cs.foldl (fun n c => n * 10 + (c.toNat - 48)) 0)
    else none

/-- Integer decoding standing in for `strconv.Atoi`: optional sign and a
digit run. -/
def parseIntStr (s : String) : Option Int :=
  match s.data with
  | '-' :: rest => (parseNatD rest).map fun n => -(n : Int)
  | '+' :: rest => (parseNatD rest).map fun n => (n : Int)
  | cs => (parseNatD cs).map fun n => (n : Int)

/-- An unsigned decimal literal with an optional fraction part. -/
def parseRatCore (cs : List Char) : Option ℚ :=
  if cs.contains '.' then
    let w := cs.takeWhile (· ≠ '.')
    let f := (cs.dropWhile (· ≠ '.')).drop 1
    if f.contains '.' then none
    else
      match parseNatD w, parseNatD f with
      | some n, some m => some ((n : ℚ) + (m : ℚ) / (10 : ℚ) ^ f.length)
      | _, _ => none
  else (parseNatD cs).map fun n => (n : ℚ)

/-- Decimal literal decoding standing in for `strconv.ParseFloat`
(optional sign, integer part, optional fraction; exact, as `ℚ`). -/
def parseRat (s : String) : Option ℚ :=
  match s.data with
  | '-' :: rest => (parseRatCore rest).map fun q => -q
  | '+' :: rest => parseRatCore rest
  | cs => parseRatCore cs

/-- The argument-parsing loops of the `TSET`/`VSEARCH` cases: decode every
bulk argument as a float, failing on the first bad one. -/
def parseVec (args : List RValue) : Option (List ℚ) :=
  args.mapM fun a => parseRat a.bulk

/-- The field/value pairing loop of the `HSET` cases
(`fields[args[i].Bulk] = args[i+1].Bulk`). -/
def pairsOf : List RValue → List (String × String)
  | f :: v :: rest => (f.bulk, v.bulk) :: pairsOf rest
  | _ => []

/-- `fmt.Sprintf("%g", v)` on a stored vector component (display only;
no claim inspects the rendered text). -/
def formatFloat (q : ℚ) : String := toString q

/-- The `HGETALL` reply-flattening loop: field, value, field, value, … -/
def flattenPairs (m : List (String × String)) : List RValue :=
  m.foldr (fun p acc => bulkV p.1 :: bulkV p.2 :: acc) []

/-- `Handler.executeWithoutLock`: executes one command against an
already-locked store, returning the reply; used for the commands queued
in a transaction.  It has no `VSEARCH` case, so `VSEARCH` inside a
transaction falls through to the unknown-command reply. -/
def executeWithoutLock (now : Int) (value : RValue) (st : HState) :
    RValue × HState :=
  let command := cmdOf value
  let args := value.arr.tail
  if command = "PING" then (strV "PONG", st)
  else if command = "ECHO" then
    match args with
    | a0 :: _ => (bulkV a0.bulk, st)
    | [] => (errV "ERR wrong number of arguments for \x27echo\x27 command", st)
  else if command = "SET" then
    match args with
    | [a0, a1] =>
      match writeAOF value st.aof with
      | none => (errV "ERR AOF write failed", st)
      | some a' => (strV "OK", ⟨SetWithoutLock st.store a0.bulk a1.bulk, a'⟩)
    | _ => (errV "ERR wrong number of arguments for \x27set\x27 command", st)
  else if command = "TSET" then
    match args with
    | a0 :: a1 :: rest =>
      match parseVec (a1 :: rest) with
      | none => (errV "ERR invalid float value", st)
      | some vec =>
        match writeAOF value st.aof with
        | none => (errV "ERR AOF write failed", st)
        | some a' => (strV "OK", ⟨SetVectorWithoutLock st.store a0.bulk vec, a'⟩)
    | _ => (errV "ERR wrong number of arguments for \x27tset\x27 command", st)
  else if command = "GET" then
    match args with
    | [a0] =>
      let r := GetWithoutLock st.store now a0.bulk
      (if r.1.2 then bulkV r.1.1 else nullV, ⟨r.2, st.aof⟩)
    | _ => (errV "ERR wrong number of arguments for \x27get\x27 command", st)
  else if command = "TGET" then
    match args with
    | [a0] =>
      let r := GetVectorWithoutLock st.store now a0.bulk
      (if r.1.2 then arrV (r.1.1.map fun v => bulkV (formatFloat v)) else nullV,
        ⟨r.2, st.aof⟩)
    | _ => (errV "ERR wrong number of arguments for \x27tget\x27 command", st)
  else if command = "DEL" then
    match args with
    | [a0] =>
      match writeAOF value st.aof with
      | none => (errV "ERR AOF write failed", st)
      | some a' =>
        let r := DelWithoutLock st.store a0.bulk
        (intV (if r.1 then 1 else 0), ⟨r.2, a'⟩)
    | _ => (errV "ERR wrong number of arguments for \x27del\x27 command", st)
  else if command = "EXPIRE" then
    match args with
    | [a0, a1] =>
      match parseIntStr a1.bulk with
      | none => (errV "ERR value is not an integer or out of range", st)
      | some seconds =>
        match writeAOF value st.aof with
        | none => (errV "ERR AOF write failed", st)
        | some a' =>
          let r := ExpireWithoutLock st.store now a0.bulk seconds
          (intV (if r.1 then 1 else 0), ⟨r.2, a'⟩)
    | _ => (errV "ERR wrong number of arguments for \x27expire\x27 command", st)
  else if command = "TTL" then
    match args with
    | [a0] =>
      let r := TTLWithoutLock st.store now a0.bulk
      (intV r.1, ⟨r.2, st.aof⟩)
    | _ => (errV "ERR wrong number of arguments for \x27ttl\x27 command", st)
  else if command = "HSET" then
    if args.length < 3 ∨ args.length % 2 = 0 then
      (errV "ERR wrong number of arguments for \x27hset\x27 command", st)
    else
      let key := (args.headD nullV).bulk
      let fields := pairsOf args.tail
      let p := HSetWithoutLock st.store now key fields
      if p.1 = -1 then
        (errV "WRONGTYPE Operation against a key holding the wrong kind of value",
          ⟨p.2, st.aof⟩)
      else
        match writeAOF value st.aof with
        | none => (errV "ERR AOF write failed", ⟨p.2, st.aof⟩)
        | some a' => (intV p.1, ⟨p.2, a'⟩)
  else if command = "HGET" then
    match args with
    | [a0, a1] =>
      let r := HGetWithoutLock st.store now a0.bulk a1.bulk
      (if ¬r.1.2.2 then
        errV "WRONGTYPE Operation against a key holding the wrong kind of value"
      else if ¬r.1.2.1 then nullV
      else bulkV r.1.1, ⟨r.2, st.aof⟩)
    | _ => (errV "ERR wrong number of arguments for \x27hget\x27 command", st)
  else if command = "HDEL" then
    match args with
    | a0 :: a1 :: rest =>
      let p := HDelWithoutLock st.store now a0.bulk ((a1 :: rest).map RValue.bulk)
      if p.1 = -1 then
        (errV "WRONGTYPE Operation against a key holding the wrong kind of value",
          ⟨p.2, st.aof⟩)
      else if p.1 > 0 then
        match writeAOF value st.aof with
        | none => (errV "ERR AOF write failed", ⟨p.2, st.aof⟩)
        | some a' => (intV p.1, ⟨p.2, a'⟩)
      else (intV p.1, ⟨p.2, st.aof⟩)
    | _ => (errV "ERR wrong number of arguments for \x27hdel\x27 command", st)
  else if command = "HGETALL" then
    match args with
    | [a0] =>
      let r := HGetAllWithoutLock st.store now a0.bulk
      (if ¬r.1.2 then
        errV "WRONGTYPE Operation against a key holding the wrong kind of value"
      else
        match r.1.1 with
        | none => arrV []
        | some m => arrV (flattenPairs m), ⟨r.2, st.aof⟩)
    | _ => (errV "ERR wrong number of arguments for \x27hgetall\x27 command", st)
  else if command = "HEXISTS" then
    match args with
    | [a0, a1] =>
      let r := HExistsWithoutLock st.store now a0.bulk a1.bulk
      (if ¬r.1.2 then
        errV "WRONGTYPE Operation against a key holding the wrong kind of value"
      else intV (if r.1.1 then 1 else 0), ⟨r.2, st.aof⟩)
    | _ => (errV "ERR wrong number of arguments for \x27hexists\x27 command", st)
  else if command = "HLEN" then
    match args with
    | [a0] =>
      let r := HLenWithoutLock st.store now a0.bulk
      (if r.1 = -1 then
        errV "WRONGTYPE Operation against a key holding the wrong kind of value"
      else intV r.1, ⟨r.2, st.aof⟩)
    | _ => (errV "ERR wrong number of arguments for \x27hlen\x27 command", st)
  else (errV ("ERR unknown command \x27" ++ command ++ "\x27"), st)

/-- `Handler.Execute`: immediate-mode execution of one command (each
store call takes the lock itself).  The returned list holds the replies
written to the connection; `none` is a runtime panic (only the `VSEARCH`
case can panic, on a negative reply-slice length). -/
noncomputable def Execute (now : Int) (value : RValue) (st : HState) :
    Option (List RValue × HState) :=
  let command := cmdOf value
  let args := value.arr.tail
  if command = "PING" then some ([strV "PONG"], st)
  else if command = "ECHO" then
    match args with
    | a0 :: _ => some ([bulkV a0.bulk], st)
    | [] => some ([errV "ERR wrong number of arguments for \x27echo\x27 command"], st)
  else if command = "SET" then
    match args with
    | [a0, a1] =>
      match writeAOF value st.aof with
      | none => some ([errV "ERR AOF write failed"], st)
      | some a' =>
        some ([strV "OK"], ⟨SetWithoutLock st.store a0.bulk a1.bulk, a'⟩)
    | _ => some ([errV "ERR wrong number of arguments for \x27set\x27 command"], st)
  else if command = "TSET" then
    match args with
    | a0 :: a1 :: rest =>
      match parseVec (a1 :: rest) with
      | none => some ([errV "ERR invalid float value"], st)
      | some vec =>
        match writeAOF value st.aof with
        | none => some ([errV "ERR AOF write failed"], st)
        | some a' =>
          some ([strV "OK"], ⟨SetVectorWithoutLock st.store a0.bulk vec, a'⟩)
    | _ => some ([errV "ERR wrong number of arguments for \x27tset\x27 command"], st)
  else if command = "GET" then
    match args with
    | [a0] =>
      let r := GetWithoutLock st.store now a0.bulk
      some ([if r.1.2 then bulkV r.1.1 else nullV], ⟨r.2, st.aof⟩)
    | _ => some ([errV "ERR wrong number of arguments for \x27get\x27 command"], st)
  else if command = "TGET" then
    match args with
    | [a0] =>
      let r := GetVectorWithoutLock st.store now a0.bulk
      some ([if r.1.2 then arrV (r.1.1.map fun v => bulkV (formatFloat v))
             else nullV], ⟨r.2, st.aof⟩)
    | _ => some ([errV "ERR wrong number of arguments for \x27tget\x27 command"], st)
  else if command = "VSEARCH" then
    if args.length < 2 then
      some ([errV "ERR wrong number of arguments for \x27vsearch\x27 command"], st)
    else
      match parseIntStr (args.getLastD nullV).bulk with
      | none => some ([errV "ERR invalid K value"], st)
      | some k =>
        match parseVec args.dropLast with
        | none => some ([errV "ERR invalid float value"], st)
        | some q =>
          match vsearchExec q k st.store now with
          | none => none
          | some keys => some ([arrV (keys.map bulkV)], st)
  else if command = "DEL" then
    match args with
    | [a0] =>
      match writeAOF value st.aof with
      | none => some ([errV "ERR AOF write failed"], st)
      | some a' =>
        let r := DelWithoutLock st.store a0.bulk
        some ([intV (if r.1 then 1 else 0)], ⟨r.2, a'⟩)
    | _ => some ([errV "ERR wrong number of arguments for \x27del\x27 command"], st)
  else if command = "EXPIRE" then
    match args with
    | [a0, a1] =>
      match parseIntStr a1.bulk with
      | none => some ([errV "ERR value is not an integer or out of range"], st)
      | some seconds =>
        match writeAOF value st.aof with
        | none => some ([errV "ERR AOF write failed"], st)
        | some a' =>
          let r := ExpireWithoutLock st.store now a0.bulk seconds
          some ([intV (if r.1 then 1 else 0)], ⟨r.2, a'⟩)
    | _ => some ([errV "ERR wrong number of arguments for \x27expire\x27 command"], st)
  else if command = "TTL" then
    match args with
    | [a0] =>
      let r := TTLWithoutLock st.store now a0.bulk
      some ([intV r.1], ⟨r.2, st.aof⟩)
    | _ => some ([errV "ERR wrong number of arguments for \x27ttl\x27 command"], st)
  else if command = "HSET" then
    if args.length < 3 ∨ args.length % 2 = 0 then
      some ([errV "ERR wrong number of arguments for \x27hset\x27 command"], st)
    else
      let key := (args.headD nullV).bulk
      let fields := pairsOf args.tail
      let p := HSetWithoutLock st.store now key fields
      if p.1 = -1 then
        some ([errV "WRONGTYPE Operation against a key holding the wrong kind of value"],
          ⟨p.2, st.aof⟩)
      else
        match writeAOF value st.aof with
        | none => some ([errV "ERR AOF write failed"], ⟨p.2, st.aof⟩)
        | some a' => some ([intV p.1], ⟨p.2, a'⟩)
  else if command = "HGET" then
    match args with
    | [a0, a1] =>
      let r := HGetWithoutLock st.store now a0.bulk a1.bulk
      some ([if ¬r.1.2.2 then
          errV "WRONGTYPE Operation against a key holding the wrong kind of value"
        else if ¬r.1.2.1 then nullV
        else bulkV r.1.1], ⟨r.2, st.aof⟩)
    | _ => some ([errV "ERR wrong number of arguments for \x27hget\x27 command"], st)
  else if command = "HDEL" then
    match args with
    | a0 :: a1 :: rest =>
      let p := HDelWithoutLock st.store now a0.bulk ((a1 :: rest).map RValue.bulk)
      if p.1 = -1 then
        some ([errV "WRONGTYPE Operation against a key holding the wrong kind of value"],
          ⟨p.2, st.aof⟩)
      else if p.1 > 0 then
        match writeAOF value st.aof with
        | none => some ([errV "ERR AOF write failed"], ⟨p.2, st.aof⟩)
        | some a' => some ([intV p.1], ⟨p.2, a'⟩)
      else some ([intV p.1], ⟨p.2, st.aof⟩)
    | _ => some ([errV "ERR wrong number of arguments for \x27hdel\x27 command"], st)
  else if command = "HGETALL" then
    match args with
    | [a0] =>
      let r := HGetAllWithoutLock st.store now a0.bulk
      some ([if ¬r.1.2 then
          errV "WRONGTYPE Operation against a key holding the wrong kind of value"
        else
          match r.1.1 with
          | none => arrV []
          | some m => arrV (flattenPairs m)], ⟨r.2, st.aof⟩)
    | _ => some ([errV "ERR wrong number of arguments for \x27hgetall\x27 command"], st)
  else if command = "HEXISTS" then
    match args with
    | [a0, a1] =>
      let r := HExistsWithoutLock st.store now a0.bulk a1.bulk
      some ([if ¬r.1.2 then
          errV "WRONGTYPE Operation against a key holding the wrong kind of value"
        else intV (if r.1.1 then 1 else 0)], ⟨r.2, st.aof⟩)
    | _ => some ([errV "ERR wrong number of arguments for \x27hexists\x27 command"], st)
  else if command = "HLEN" then
    match args with
    | [a0] =>
      let r := HLenWithoutLock st.store now a0.bulk
      some ([if r.1 = -1 then
          errV "WRONGTYPE Operation against a key holding the wrong kind of value"
        else intV r.1], ⟨r.2, st.aof⟩)
    | _ => some ([errV "ERR wrong number of arguments for \x27hlen\x27 command"], st)
  else some ([errV ("ERR unknown command \x27" ++ command ++ "\x27")], st)

/-- The `for i, cmdValue := range sess.txQueue` loop of `Handler.execTx`:
execute the queued commands in arrival order, threading the shared
state, and collect one reply per command. -/
def runQueue (now : Int) : List RValue → HState → List RValue × HState
  | [], st => ([], st)
  | c :: cs, st =>
    let r := executeWithoutLock now c st
    let rest := runQueue now cs r.2
    (r.1 :: rest.1, rest.2)

/-- `Handler.execTx`: commit the queued batch under one lock acquisition,
emit the aggregate array reply and reset the session to idle. -/
def execTx (now : Int) (sess : Session) (st : HState) :
    List RValue × Session × HState :=
  let p := runQueue now sess.txQueue st
  ([arrV p.1], ⟨false, []⟩, p.2)

/-- `Handler.handleCommand`: transaction-control dispatch, queuing while
in a transaction, and immediate execution otherwise.  `none` propagates
a runtime panic from `Execute`. -/
noncomputable def handleCommand (now : Int) (value : RValue) (sess : Session)
    (st : HState) : Option (List RValue × Session × HState) :=
  let command := cmdOf value
  if command = "MULTI" then
    if sess.inTx then some ([errV "ERR MULTI calls can not be nested"], sess, st)
    else some ([strV "OK"], ⟨true, []⟩, st)
  else if command = "DISCARD" then
    if ¬sess.inTx then some ([errV "ERR DISCARD without MULTI"], sess, st)
    else some ([strV "OK"], ⟨false, []⟩, st)
  else if command = "EXEC" then
    if ¬sess.inTx then some ([errV "ERR EXEC without MULTI"], sess, st)
    else some (execTx now sess st)
  else if sess.inTx then
    some ([strV "QUEUED"], ⟨sess.inTx, sess.txQueue ++ [value]⟩, st)
  else
    match Execute now value st with
    | none => none
    | some (ws, st') => some (ws, sess, st')

/-! ## Association-list lemmas -/

theorem lookupA_insertA_self {α : Type} (l : List (String × α)) (k : String)
    (v : α) : lookupA (insertA l k v) k = some v := by
  induction l with
  | nil => simp [insertA, lookupA]
  | cons p t ih =>
    obtain ⟨k', v'⟩ := p
    by_cases h : k' = k
    · simp [insertA, lookupA, h]
    · simp [insertA, lookupA, h, ih]

theorem lookupA_insertA_ne {α : Type} (l : List (String × α)) (k k' : String)
    (v : α) (h : k' ≠ k) : lookupA (insertA l k v) k' = lookupA l k' := by
  have hkk : ¬k = k' := fun hh => h hh.symm
  induction l with
  | nil =>
    simp only [insertA, lookupA]
    rw [if_neg hkk]
  | cons p t ih =>
    obtain ⟨k₀, v₀⟩ := p
    by_cases h0 : k₀ = k
    · subst h0
      simp only [insertA, if_pos rfl, lookupA]
      rw [if_neg hkk, if_neg hkk]
    · simp only [insertA, if_neg h0, lookupA]
      by_cases h1 : k₀ = k'
      · rw [if_pos h1, if_pos h1]
      · rw [if_neg h1, if_neg h1, ih]

theorem insertA_of_lookupA {α : Type} (l : List (String × α)) (k : String)
    (v : α) (h : lookupA l k = some v) : insertA l k v = l := by
  induction l with
  | nil => simp [lookupA] at h
  | cons p t ih =>
    obtain ⟨k', v'⟩ := p
    by_cases h0 : k' = k
    · subst h0
      simp [lookupA] at h
      simp [insertA, h]
    · simp [lookupA, h0] at h
      simp [insertA, h0, ih h]

theorem lookupA_eq_of_mem_nodup {α : Type} (l : List (String × α))
    (k : String) (v : α) (hm : (k, v) ∈ l) (hnd : (l.map Prod.fst).Nodup) :
    lookupA l k = some v := by
  induction l with
  | nil => simp at hm
  | cons p t ih =>
    obtain ⟨k', v'⟩ := p
    simp only [List.map_cons, List.nodup_cons] at hnd
    rcases List.mem_cons.mp hm with h | h
    · cases h
      simp [lookupA]
    · have hk : k' ≠ k := by
        intro hh
        subst hh
        exact hnd.1 (List.mem_map.mpr ⟨(k', v), h, rfl⟩)
      simp [lookupA, hk, ih h hnd.2]

theorem lookupA_isSome_of_mem_fst {α : Type} (l : List (String × α))
    (k : String) (hm : k ∈ l.map Prod.fst) : (lookupA l k).isSome := by
  induction l with
  | nil => simp at hm
  | cons p t ih =>
    obtain ⟨k', v'⟩ := p
    by_cases h0 : k' = k
    · simp [lookupA, h0]
    · simp only [List.map_cons, List.mem_cons] at hm
      rcases hm with h | h
      · exact absurd h.symm h0
      · simp [lookupA, h0, ih h]

/-! ## `hashInsertAll` lemmas -/

theorem hashInsertAll_added_of_fresh (fields : List (String × String)) :
    ∀ h : List (String × String),
    (∀ f ∈ fields.map Prod.fst, lookupA h f = none) →
    (fields.map Prod.fst).Nodup →
    (hashInsertAll h fields).1 = fields.length := by
  induction fields with
  | nil => intro h _ _; simp [hashInsertAll]
  | cons p rest ih =>
    intro h habs hnd
    obtain ⟨f, v⟩ := p
    simp only [List.map_cons, List.nodup_cons] at hnd
    have hf : lookupA h f = none := habs f (by simp)
    have hrest : ∀ g ∈ rest.map Prod.fst, lookupA (insertA h f v) g = none := by
      intro g hg
      have hne : g ≠ f := fun hh => hnd.1 (hh ▸ hg)
      rw [lookupA_insertA_ne h f g v hne]
      exact habs g (by simp [hg])
    simp only [hashInsertAll, hf]
    rw [ih (insertA h f v) hrest hnd.2]
    simp only [List.length_cons]
    push_cast
    omega

theorem hashInsertAll_added_zero_of_present (fields : List (String × String)) :
    ∀ h : List (String × String),
    (∀ f ∈ fields.map Prod.fst, (lookupA h f).isSome) →
    (hashInsertAll h fields).1 = 0 := by
  induction fields with
  | nil => intro h _; simp [hashInsertAll]
  | cons p rest ih =>
    intro h hpres
    obtain ⟨f, v⟩ := p
    have hf : (lookupA h f).isSome := hpres f (by simp)
    obtain ⟨w, hw⟩ := Option.isSome_iff_exists.mp hf
    have hrest : ∀ g ∈ rest.map Prod.fst, (lookupA (insertA h f v) g).isSome := by
      intro g hg
      by_cases hgf : g = f
      · subst hgf; simp [lookupA_insertA_self]
      · rw [lookupA_insertA_ne h f g v hgf]
        exact hpres g (by simp [hg])
    simp only [hashInsertAll, hw]
    rw [ih (insertA h f v) hrest]
    simp

theorem hashInsertAll_snd_of_eq (fields : List (String × String)) :
    ∀ h : List (String × String),
    (∀ fv ∈ fields, lookupA h fv.1 = some fv.2) →
    (hashInsertAll h fields).2 = h := by
  induction fields with
  | nil => intro h _; simp [hashInsertAll]
  | cons p rest ih =>
    intro h heq
    obtain ⟨f, v⟩ := p
    have hf : lookupA h f = some v := heq (f, v) (by simp)
    have hins : insertA h f v = h := insertA_of_lookupA h f v hf
    simp only [hashInsertAll, hf, hins]
    exact ih h fun fv hfv => heq fv (by simp [hfv])

theorem hashInsertAll_lookup_not_key (fields : List (String × String)) :
    ∀ (h : List (String × String)) (g : String),
    g ∉ fields.map Prod.fst →
    lookupA (hashInsertAll h fields).2 g = lookupA h g := by
  induction fields with
  | nil => intro h g _; simp [hashInsertAll]
  | cons p rest ih =>
    intro h g hg
    obtain ⟨f, v⟩ := p
    simp only [List.map_cons, List.mem_cons, not_or] at hg
    simp only [hashInsertAll]
    cases hl : lookupA h f <;>
      simpa [hl, ih (insertA h f v) g hg.2] using
        lookupA_insertA_ne h f g v hg.1

theorem hashInsertAll_lookup_mem (fields : List (String × String)) :
    ∀ (h : List (String × String)) (f : String) (v : String),
    (f, v) ∈ fields → (fields.map Prod.fst).Nodup →
    lookupA (hashInsertAll h fields).2 f = some v := by
  induction fields with
  | nil => intro h f v hm _; simp at hm
  | cons p rest ih =>
    intro h f v hm hnd
    obtain ⟨f', v'⟩ := p
    simp only [List.map_cons, List.nodup_cons] at hnd
    rcases List.mem_cons.mp hm with h0 | h0
    · cases h0
      have hnotin : f ∉ rest.map Prod.fst := hnd.1
      simp only [hashInsertAll]
      cases hl : lookupA h f <;>
        simp [hl, hashInsertAll_lookup_not_key rest _ f hnotin,
          lookupA_insertA_self]
    · simp only [hashInsertAll]
      cases hl : lookupA h f' <;> simp [hl, ih _ f v h0 hnd.2]

/-! ## `runQueue` lemmas -/

theorem runQueue_length (now : Int) (q : List RValue) :
    ∀ st : HState, (runQueue now q st).1.length = q.length := by
  induction q with
  | nil => intro st; simp [runQueue]
  | cons c cs ih => intro st; simp [runQueue, ih]

/-! ## Snapshot and search helpers -/

theorem mem_getAllVectors_iff (d : Store) (now : Int) (k : String)
    (v : List ℚ) :
    (k, v) ∈ (GetAllVectors d now).1 ↔
      ∃ it : Item, (k, it) ∈ d ∧ it.typ = TypeVector ∧
        expiredAt it now = false ∧ it.vecVal = v := by
  simp only [GetAllVectors, List.mem_filterMap]
  constructor
  · rintro ⟨⟨k', it⟩, hmem, hcond⟩
    by_cases he : expiredAt it now
    · simp [he] at hcond
    · by_cases ht : it.typ = TypeVector
      · simp only [he, ht, if_true, if_false, Bool.false_eq_true,
          ite_false, ite_true, Option.some.injEq, Prod.mk.injEq] at hcond
        obtain ⟨rfl, rfl⟩ := hcond
        exact ⟨it, hmem, ht, by simpa using he, rfl⟩
      · simp [he, ht] at hcond
  · rintro ⟨it, hmem, ht, he, rfl⟩
    exact ⟨(k, it), hmem, by simp [he, ht]⟩

theorem length_filterMap_guard {α β : Type} (P : α → Prop) [DecidablePred P]
    (g : α → β) (l : List α) :
    (l.filterMap fun x => if P x then some (g x) else none).length =
      (l.filter fun x => decide (P x)).length := by
  induction l with
  | nil => simp
  | cons a t ih => by_cases h : P a <;> simp [h, ih]

/-! ## Claim theorems -/

/-- C1: the specification demands that for every mutating invocation a
failed persistence-log append leaves the keyspace unchanged (the
mutation may only happen after a successful append).  The code violates
this for `HSET` (and `HDEL`): at the failing input below — `HSET k f v`
against an empty keyspace with a failing log — both execution paths
return the persistence-failure error, yet the keyspace has already
gained the new hash entry. -/
theorem C1_hset_mutates_before_failed_log :
    executeWithoutLock 0 (arrV [bulkV "HSET", bulkV "k", bulkV "f", bulkV "v"])
        ⟨[], some ⟨true, []⟩⟩ =
      (errV "ERR AOF write failed",
        ⟨[("k", ⟨TypeHash, "", [], [("f", "v")], none⟩)], some ⟨true, []⟩⟩) ∧
    Execute 0 (arrV [bulkV "HSET", bulkV "k", bulkV "f", bulkV "v"])
        ⟨[], some ⟨true, []⟩⟩ =
      some ([errV "ERR AOF write failed"],
        ⟨[("k", ⟨TypeHash, "", [], [("f", "v")], none⟩)], some ⟨true, []⟩⟩) :=
  ⟨rfl, rfl⟩

/-- C2 counterexample: the claim says every `K ≤ 0` yields an empty
result, but at `K = -1` the `VSEARCH` invocation panics
(`make([]resp.Value, -1)`), modelled as `none`, instead of returning the
empty reply. -/
theorem C2_counterexample :
    Execute 0 (arrV [bulkV "VSEARCH", bulkV "1", bulkV "-1"]) ⟨[], none⟩ = none ∧
    vsearchExec [(1 : ℚ)] (-1) [] 0 ≠ some [] :=
  ⟨rfl, by simp [show vsearchExec [(1 : ℚ)] (-1) [] 0 = none from rfl]⟩

/-- C2 (amended): `K = 0` yields an empty result for every query and
keyspace; but `K < 0` makes the invocation fail with a runtime panic
(negative reply-slice length) rather than returning an empty result. -/
theorem C2_vsearch_nonpositive_k (q : List ℚ) (k : Int) (d : Store) (now : Int) :
    vsearchExec q 0 d now = some [] ∧
    (k < 0 → vsearchExec q k d now = none) := by
  constructor
  · simp only [vsearchExec]
    rw [if_neg (by omega : ¬(0 : Int) > ((sortByDist ((GetAllVectors d now).1.filterMap fun p =>
      if p.2.length = q.length then some (p.1, cosineDistance q p.2) else none)).length : Int))]
    simp
  · intro hk
    simp only [vsearchExec]
    rw [if_neg (by omega : ¬k > ((sortByDist ((GetAllVectors d now).1.filterMap fun p =>
      if p.2.length = q.length then some (p.1, cosineDistance q p.2) else none)).length : Int))]
    rw [if_pos hk]

/-- Witness for C2: at the concrete input `q = [1]`, `K = -1`, empty
keyspace, the invocation indeed fails. -/
theorem C2_vsearch_nonpositive_k_witness :
    vsearchExec [(1 : ℚ)] 0 [] 0 = some [] ∧ vsearchExec [(1 : ℚ)] (-1) [] 0 = none :=
  ⟨(C2_vsearch_nonpositive_k [(1 : ℚ)] (-1) [] 0).1,
    (C2_vsearch_nonpositive_k [(1 : ℚ)] (-1) [] 0).2 (by decide)⟩

/-- C3 counterexample: the claim demands not-found exactly at the
deadline, but after `SET k v` at time 0 and `EXPIRE k 1`, a read exactly
at the deadline (one second later) still succeeds: the lazy-expiration
test is the strict `time.Now().After`. -/
theorem C3_counterexample :
    (GetWithoutLock (ExpireWithoutLock (SetWithoutLock [] "k" "v") 0 "k" 1).2
      nsPerSec "k").1 = ("v", true) := rfl

/-- C3 (amended): after a write of `k` and `SetExpiry(k, s)` at time
`tw`, scalar reads of `k` succeed at every time up to and including the
deadline `tw + s` seconds, and report not-found at every time strictly
after it (the boundary instant itself still succeeds). -/
theorem C3_expiry_boundary (d : Store) (k v : String) (s tw t : Int)
    (hs : 0 < s) :
    (ExpireWithoutLock (SetWithoutLock d k v) tw k s).1 = true ∧
    (t ≤ tw + s * nsPerSec →
      (GetWithoutLock (ExpireWithoutLock (SetWithoutLock d k v) tw k s).2 t k).1 =
        (v, true)) ∧
    (tw + s * nsPerSec < t →
      (GetWithoutLock (ExpireWithoutLock (SetWithoutLock d k v) tw k s).2 t k).1 =
        ("", false)) := by
  have hl1 : lookupA (SetWithoutLock d k v) k = some (scalarItem v) :=
    lookupA_insertA_self d k (scalarItem v)
  have hexp :
      ExpireWithoutLock (SetWithoutLock d k v) tw k s =
        (true, insertA (SetWithoutLock d k v) k
          ⟨TypeString, v, [], [], some (tw + s * nsPerSec)⟩) := by
    simp [ExpireWithoutLock, hl1, expiredAt, scalarItem]
  have hl2 : lookupA (ExpireWithoutLock (SetWithoutLock d k v) tw k s).2 k =
      some ⟨TypeString, v, [], [], some (tw + s * nsPerSec)⟩ := by
    rw [hexp]
    exact lookupA_insertA_self _ k _
  refine ⟨by rw [hexp], ?_, ?_⟩
  · intro ht
    have hnotexp : expiredAt ⟨TypeString, v, [], [], some (tw + s * nsPerSec)⟩ t = false := by
      simp [expiredAt]
      omega
    simp [GetWithoutLock, hl2, hnotexp]
  · intro ht
    have hisexp : expiredAt ⟨TypeString, v, [], [], some (tw + s * nsPerSec)⟩ t = true := by
      simp [expiredAt]
      omega
    simp [GetWithoutLock, hl2, hisexp]

/-- Witness for C3: concretely, `SET k v` then `EXPIRE k 1` at time 0;
reads succeed at the deadline and fail one nanosecond later. -/
theorem C3_expiry_boundary_witness :
    (ExpireWithoutLock (SetWithoutLock [] "k" "v") 0 "k" 1).1 = true ∧
    (GetWithoutLock (ExpireWithoutLock (SetWithoutLock [] "k" "v") 0 "k" 1).2
      nsPerSec "k").1 = ("v", true) ∧
    (GetWithoutLock (ExpireWithoutLock (SetWithoutLock [] "k" "v") 0 "k" 1).2
      (nsPerSec + 1) "k").1 = ("", false) := by
  obtain ⟨h1, h2, h3⟩ := C3_expiry_boundary [] "k" "v" 1 0 nsPerSec (by decide)
  refine ⟨h1, h2 (by simp), ?_⟩
  obtain ⟨_, _, h3'⟩ := C3_expiry_boundary [] "k" "v" 1 0 (nsPerSec + 1) (by decide)
  exact h3' (by simp [nsPerSec])

/-- C9: the vector snapshot returns exactly the non-expired vector
entries with their payloads and leaves the keyspace completely
unchanged — entries past their expiry are omitted from the result but
not deleted. -/
theorem C9_snapshot_frame (d : Store) (now : Int) :
    (GetAllVectors d now).2 = d ∧
    ∀ k v, (k, v) ∈ (GetAllVectors d now).1 ↔
      ∃ it : Item, (k, it) ∈ d ∧ it.typ = TypeVector ∧
        expiredAt it now = false ∧ it.vecVal = v :=
  ⟨rfl, fun k v => mem_getAllVectors_iff d now k v⟩

/-- C5: while a connection is queuing, any non-control invocation is
appended to the queue unexecuted with the shared state (keyspace and
log) untouched and a "QUEUED" acknowledgement; on commit the queued
invocations run in arrival order producing one reply each inside a
single aggregate array reply, after which the queue is empty and the
session idle. -/
theorem C5_queue_and_commit (now : Int) (value v2 : RValue) (sess : Session)
    (st : HState) (hq : sess.inTx = true)
    (h1 : cmdOf value ≠ "MULTI") (h2 : cmdOf value ≠ "DISCARD")
    (h3 : cmdOf value ≠ "EXEC") (hex : cmdOf v2 = "EXEC") :
    handleCommand now value sess st =
      some ([strV "QUEUED"], ⟨true, sess.txQueue ++ [value]⟩, st) ∧
    handleCommand now v2 sess st =
      some ([arrV (runQueue now sess.txQueue st).1], ⟨false, []⟩,
        (runQueue now sess.txQueue st).2) ∧
    (runQueue now sess.txQueue st).1.length = sess.txQueue.length := by
  refine ⟨?_, ?_, runQueue_length now sess.txQueue st⟩
  · simp [handleCommand, h1, h2, h3, hq]
  · simp [handleCommand, hex, hq, execTx,
      show ("EXEC" : String) ≠ "MULTI" from by decide,
      show ("EXEC" : String) ≠ "DISCARD" from by decide]

/-- Witness for C5: a concrete `SET` queued on a queuing session and a
concrete `EXEC` committing it. -/
theorem C5_queue_and_commit_witness :
    handleCommand 0 (arrV [bulkV "SET", bulkV "a", bulkV "1"]) ⟨true, []⟩ ⟨[], none⟩ =
      some ([strV "QUEUED"],
        ⟨true, [arrV [bulkV "SET", bulkV "a", bulkV "1"]]⟩, ⟨[], none⟩) ∧
    handleCommand 0 (arrV [bulkV "EXEC"]) ⟨true, []⟩ ⟨[], none⟩ =
      some ([arrV (runQueue 0 [] ⟨[], none⟩).1], ⟨false, []⟩,
        (runQueue 0 [] ⟨[], none⟩).2) ∧
    (runQueue 0 ([] : List RValue) ⟨[], none⟩).1.length = ([] : List RValue).length := by
  have h := C5_queue_and_commit 0 (arrV [bulkV "SET", bulkV "a", bulkV "1"])
    (arrV [bulkV "EXEC"]) ⟨true, []⟩ ⟨[], none⟩ rfl
    (by decide) (by decide) (by decide) (by decide)
  exact h

/-- C6: a `MULTI` received while already queuing is rejected with an
error and leaves the session (state and queue) and the shared state
unchanged; `EXEC` and `DISCARD` received while idle are rejected with
errors and change nothing. -/
theorem C6_tx_control_misuse (now : Int) (vM vE vD : RValue) (sess : Session)
    (st : HState) (hM : cmdOf vM = "MULTI") (hE : cmdOf vE = "EXEC")
    (hD : cmdOf vD = "DISCARD") :
    (sess.inTx = true →
      handleCommand now vM sess st =
        some ([errV "ERR MULTI calls can not be nested"], sess, st)) ∧
    (sess.inTx = false →
      handleCommand now vE sess st =
        some ([errV "ERR EXEC without MULTI"], sess, st) ∧
      handleCommand now vD sess st =
        some ([errV "ERR DISCARD without MULTI"], sess, st)) := by
  constructor
  · intro h
    simp [handleCommand, hM, h]
  · intro h
    constructor
    · simp [handleCommand, hE, h,
        show ("EXEC" : String) ≠ "MULTI" from by decide,
        show ("EXEC" : String) ≠ "DISCARD" from by decide]
    · simp [handleCommand, hD, h,
        show ("DISCARD" : String) ≠ "MULTI" from by decide]

/-- Witness for C6: concrete `MULTI` on a queuing session, and concrete
`EXEC`/`DISCARD` on an idle session. -/
theorem C6_tx_control_misuse_witness :
    handleCommand 0 (arrV [bulkV "MULTI"]) ⟨true, []⟩ ⟨[], none⟩ =
      some ([errV "ERR MULTI calls can not be nested"], ⟨true, []⟩, ⟨[], none⟩) ∧
    handleCommand 0 (arrV [bulkV "EXEC"]) ⟨false, []⟩ ⟨[], none⟩ =
      some ([errV "ERR EXEC without MULTI"], ⟨false, []⟩, ⟨[], none⟩) ∧
    handleCommand 0 (arrV [bulkV "DISCARD"]) ⟨false, []⟩ ⟨[], none⟩ =
      some ([errV "ERR DISCARD without MULTI"], ⟨false, []⟩, ⟨[], none⟩) := by
  have hA := (C6_tx_control_misuse 0 (arrV [bulkV "MULTI"]) (arrV [bulkV "EXEC"])
    (arrV [bulkV "DISCARD"]) ⟨true, []⟩ ⟨[], none⟩ (by decide) (by decide) (by decide)).1 rfl
  have hB := (C6_tx_control_misuse 0 (arrV [bulkV "MULTI"]) (arrV [bulkV "EXEC"])
    (arrV [bulkV "DISCARD"]) ⟨false, []⟩ ⟨[], none⟩ (by decide) (by decide) (by decide)).2 rfl
  exact ⟨hA, hB.1, hB.2⟩

/-- C7: every FieldMap operation applied to an existing, non-expired key
of Scalar or Vector kind reports the kind-mismatch signal and leaves the
keyspace unchanged — the entry is never coerced to a FieldMap. -/
theorem C7_fieldmap_wrongkind (d : Store) (now : Int) (k : String) (it : Item)
    (hl : lookupA d k = some it) (he : expiredAt it now = false)
    (ht : it.typ = TypeString ∨ it.typ = TypeVector) :
    (∀ fields, HSetWithoutLock d now k fields = (-1, d)) ∧
    (∀ f, HGetWithoutLock d now k f = (("", false, false), d)) ∧
    (∀ fl, HDelWithoutLock d now k fl = (-1, d)) ∧
    HGetAllWithoutLock d now k = ((none, false), d) ∧
    (∀ f, HExistsWithoutLock d now k f = ((false, false), d)) ∧
    HLenWithoutLock d now k = (-1, d) := by
  have hne : it.typ ≠ TypeHash := by
    rcases ht with h | h <;> simp [h, TypeString, TypeVector, TypeHash]
  refine ⟨fun fields => ?_, fun f => ?_, fun fl => ?_, ?_, fun f => ?_, ?_⟩ <;>
    simp [HSetWithoutLock, HGetWithoutLock, HDelWithoutLock,
      HGetAllWithoutLock, HExistsWithoutLock, HLenWithoutLock, hl, he, hne]

/-- Witness for C7: a concrete scalar entry rejects every FieldMap
operation unchanged. -/
theorem C7_fieldmap_wrongkind_witness :
    HSetWithoutLock [("k", scalarItem "x")] 0 "k" [("f", "v")] =
      (-1, [("k", scalarItem "x")]) ∧
    HGetWithoutLock [("k", scalarItem "x")] 0 "k" "f" =
      (("", false, false), [("k", scalarItem "x")]) ∧
    HDelWithoutLock [("k", scalarItem "x")] 0 "k" ["f"] =
      (-1, [("k", scalarItem "x")]) ∧
    HGetAllWithoutLock [("k", scalarItem "x")] 0 "k" =
      ((none, false), [("k", scalarItem "x")]) ∧
    HExistsWithoutLock [("k", scalarItem "x")] 0 "k" "f" =
      ((false, false), [("k", scalarItem "x")]) ∧
    HLenWithoutLock [("k", scalarItem "x")] 0 "k" = (-1, [("k", scalarItem "x")]) := by
  obtain ⟨h1, h2, h3, h4, h5, h6⟩ := C7_fieldmap_wrongkind
    [("k", scalarItem "x")] 0 "k" (scalarItem "x") rfl rfl (Or.inl rfl)
  exact ⟨h1 [("f", "v")], h2 "f", h3 ["f"], h4, h5 "f", h6⟩

/-- C8: `FieldWrite` of `N` distinct fields on an absent key returns
`addedCount = N`; repeating the identical call returns `0` and leaves
the keyspace (hence the stored field values) exactly unchanged;
repeating with different values for the same field set returns `0` and
updates the stored values. -/
theorem C8_hset_added_counts (d : Store) (now : Int) (k : String)
    (fields fields2 : List (String × String))
    (habs : lookupA d k = none)
    (hnd : (fields.map Prod.fst).Nodup)
    (hnd2 : (fields2.map Prod.fst).Nodup)
    (hkeys : ∀ f, f ∈ fields2.map Prod.fst → f ∈ fields.map Prod.fst) :
    (HSetWithoutLock d now k fields).1 = fields.length ∧
    HSetWithoutLock (HSetWithoutLock d now k fields).2 now k fields =
      (0, (HSetWithoutLock d now k fields).2) ∧
    (HSetWithoutLock (HSetWithoutLock d now k fields).2 now k fields2).1 = 0 ∧
    ∃ it : Item,
      lookupA (HSetWithoutLock (HSetWithoutLock d now k fields).2 now k fields2).2 k =
        some it ∧
      ∀ fv ∈ fields2, lookupA it.hashVal fv.1 = some fv.2 := by
  have hfreshA : ∀ f ∈ fields.map Prod.fst, lookupA ([] : List (String × String)) f = none :=
    fun _ _ => rfl
  have hadded : (hashInsertAll [] fields).1 = fields.length :=
    hashInsertAll_added_of_fresh fields [] hfreshA hnd
  have hlookupVals : ∀ fv ∈ fields, lookupA (hashInsertAll [] fields).2 fv.1 = some fv.2 :=
    fun fv hfv => hashInsertAll_lookup_mem fields [] fv.1 fv.2 hfv hnd
  have hsomeVals : ∀ f ∈ fields.map Prod.fst,
      (lookupA (hashInsertAll [] fields).2 f).isSome := by
    intro f hf
    obtain ⟨fv, hfv, rfl⟩ := List.mem_map.mp hf
    simp [hlookupVals fv hfv]
  have hfirst :
      HSetWithoutLock d now k fields =
        ((fields.length : Int),
          insertA d k ⟨TypeHash, "", [], (hashInsertAll [] fields).2, none⟩) := by
    simp only [HSetWithoutLock, habs, hadded]
  have hlk : lookupA (insertA d k ⟨TypeHash, "", [], (hashInsertAll [] fields).2, none⟩) k =
      some ⟨TypeHash, "", [], (hashInsertAll [] fields).2, none⟩ :=
    lookupA_insertA_self d k _
  have hstep : ∀ fs : List (String × String),
      HSetWithoutLock (insertA d k ⟨TypeHash, "", [], (hashInsertAll [] fields).2, none⟩)
          now k fs =
        ((hashInsertAll (hashInsertAll [] fields).2 fs).1,
          insertA (insertA d k ⟨TypeHash, "", [], (hashInsertAll [] fields).2, none⟩) k
            ⟨TypeHash, "", [], (hashInsertAll (hashInsertAll [] fields).2 fs).2, none⟩) := by
    intro fs
    simp only [HSetWithoutLock, hlk]
    simp [expiredAt, TypeHash]
  refine ⟨?_, ?_, ?_, ?_⟩
  · rw [hfirst]
  · rw [hfirst]
    show HSetWithoutLock (insertA d k ⟨TypeHash, "", [], (hashInsertAll [] fields).2, none⟩)
        now k fields =
      (0, insertA d k ⟨TypeHash, "", [], (hashInsertAll [] fields).2, none⟩)
    rw [hstep fields, hashInsertAll_added_zero_of_present fields _ hsomeVals,
      hashInsertAll_snd_of_eq fields _ hlookupVals,
      insertA_of_lookupA _ k _ hlk]
  · rw [hfirst]
    show (HSetWithoutLock (insertA d k ⟨TypeHash, "", [], (hashInsertAll [] fields).2, none⟩)
        now k fields2).1 = 0
    rw [hstep fields2]
    exact hashInsertAll_added_zero_of_present fields2 _
      fun f hf => hsomeVals f (hkeys f hf)
  · refine ⟨⟨TypeHash, "", [], (hashInsertAll (hashInsertAll [] fields).2 fields2).2, none⟩,
      ?_, ?_⟩
    · rw [hfirst]
      show lookupA (HSetWithoutLock
          (insertA d k ⟨TypeHash, "", [], (hashInsertAll [] fields).2, none⟩)
          now k fields2).2 k = _
      rw [hstep fields2]
      exact lookupA_insertA_self _ k _
    · intro fv hfv
      exact hashInsertAll_lookup_mem fields2 _ fv.1 fv.2 hfv hnd2

/-- Witness for C8: two fresh fields on an absent key, then the
identical write, then a write of new values for the same fields. -/
theorem C8_hset_added_counts_witness :
    (HSetWithoutLock [] 0 "h" [("a", "1"), ("b", "2")]).1 = 2 ∧
    HSetWithoutLock (HSetWithoutLock [] 0 "h" [("a", "1"), ("b", "2")]).2 0 "h"
        [("a", "1"), ("b", "2")] =
      (0, (HSetWithoutLock [] 0 "h" [("a", "1"), ("b", "2")]).2) ∧
    (HSetWithoutLock (HSetWithoutLock [] 0 "h" [("a", "1"), ("b", "2")]).2 0 "h"
        [("a", "3"), ("b", "4")]).1 = 0 ∧
    ∃ it : Item,
      lookupA (HSetWithoutLock (HSetWithoutLock [] 0 "h" [("a", "1"), ("b", "2")]).2 0 "h"
        [("a", "3"), ("b", "4")]).2 "h" = some it ∧
      ∀ fv ∈ [("a", "3"), ("b", "4")], lookupA it.hashVal fv.1 = some fv.2 := by
  have h := C8_hset_added_counts [] 0 "h" [("a", "1"), ("b", "2")] [("a", "3"), ("b", "4")]
    rfl (by decide) (by decide) (by decide)
  simpa using h

/-- C10: an `HDEL` invocation that removes zero fields appends nothing
to the persistence log and replies with integer `0`; a log record is
written only when at least one field was removed, and in that case the
removal has already been applied to the keyspace before the append is
attempted (on append failure the error reply is returned with the
removal retained and the log unchanged). -/
theorem C10_hdel_logging (now : Int) (value c a1 a2 : RValue)
    (rs : List RValue) (st : HState) (a : AofSt)
    (harr : value.arr = c :: a1 :: a2 :: rs)
    (hcmd : cmdOf value = "HDEL") :
    ((HDelWithoutLock st.store now a1.bulk ((a2 :: rs).map RValue.bulk)).1 = 0 →
      executeWithoutLock now value st =
        (intV 0, ⟨(HDelWithoutLock st.store now a1.bulk ((a2 :: rs).map RValue.bulk)).2,
          st.aof⟩) ∧
      Execute now value st =
        some ([intV 0],
          ⟨(HDelWithoutLock st.store now a1.bulk ((a2 :: rs).map RValue.bulk)).2,
            st.aof⟩)) ∧
    ((HDelWithoutLock st.store now a1.bulk ((a2 :: rs).map RValue.bulk)).1 > 0 →
      st.aof = some a → a.fails = true →
      executeWithoutLock now value st =
        (errV "ERR AOF write failed",
          ⟨(HDelWithoutLock st.store now a1.bulk ((a2 :: rs).map RValue.bulk)).2,
            st.aof⟩) ∧
      Execute now value st =
        some ([errV "ERR AOF write failed"],
          ⟨(HDelWithoutLock st.store now a1.bulk ((a2 :: rs).map RValue.bulk)).2,
            st.aof⟩)) ∧
    ((HDelWithoutLock st.store now a1.bulk ((a2 :: rs).map RValue.bulk)).1 > 0 →
      st.aof = some a → a.fails = false →
      executeWithoutLock now value st =
        (intV (HDelWithoutLock st.store now a1.bulk ((a2 :: rs).map RValue.bulk)).1,
          ⟨(HDelWithoutLock st.store now a1.bulk ((a2 :: rs).map RValue.bulk)).2,
            some ⟨false, a.records ++ [value]⟩⟩) ∧
      Execute now value st =
        some ([intV (HDelWithoutLock st.store now a1.bulk ((a2 :: rs).map RValue.bulk)).1],
          ⟨(HDelWithoutLock st.store now a1.bulk ((a2 :: rs).map RValue.bulk)).2,
            some ⟨false, a.records ++ [value]⟩⟩)) := by
  refine ⟨?_, ?_, ?_⟩
  · intro h0
    simp only [List.map_cons] at h0
    constructor <;>
      simp +decide [executeWithoutLock, Execute, hcmd, harr, h0,
        show ¬(0 : Int) = -1 from by decide]
  · intro hpos haof hfails
    simp only [List.map_cons] at hpos
    have hne : (HDelWithoutLock st.store now a1.bulk
        (a2.bulk :: rs.map RValue.bulk)).1 ≠ -1 := by omega
    constructor <;>
      simp +decide [executeWithoutLock, Execute, hcmd, harr, haof, writeAOF, hfails,
        hne, hpos]
  · intro hpos haof hok
    simp only [List.map_cons] at hpos
    have hne : (HDelWithoutLock st.store now a1.bulk
        (a2.bulk :: rs.map RValue.bulk)).1 ≠ -1 := by omega
    constructor <;>
      simp +decide [executeWithoutLock, Execute, hcmd, harr, haof, writeAOF, hok,
        hne, hpos]

/-- Witness for C10: a concrete `HDEL` of an absent key removes nothing,
replies `0` and leaves the (failing) log untouched. -/
theorem C10_hdel_logging_witness :
    executeWithoutLock 0 (arrV [bulkV "HDEL", bulkV "k", bulkV "f"])
        ⟨[], some ⟨true, []⟩⟩ =
      (intV 0,
        ⟨(HDelWithoutLock [] 0 "k" [(bulkV "f").bulk]).2, some ⟨true, []⟩⟩) ∧
    Execute 0 (arrV [bulkV "HDEL", bulkV "k", bulkV "f"]) ⟨[], some ⟨true, []⟩⟩ =
      some ([intV 0],
        ⟨(HDelWithoutLock [] 0 "k" [(bulkV "f").bulk]).2, some ⟨true, []⟩⟩) := by
  have h := (C10_hdel_logging 0 (arrV [bulkV "HDEL", bulkV "k", bulkV "f"])
    (bulkV "HDEL") (bulkV "k") (bulkV "f") [] ⟨[], some ⟨true, []⟩⟩ ⟨true, []⟩
    rfl (by decide)).1 (by decide)
  simpa using h

/-- C4: for `K > 0` the similarity search returns the keys of a list of
scored candidates that is sorted by non-decreasing cosine distance from
the query, contains only non-expired vector entries whose dimensionality
matches the query's (scored by their stored vectors), and has length
`min K (number of eligible candidates)`. -/
theorem C4_vsearch_results (q : List ℚ) (k : Int) (d : Store) (now : Int)
    (hk : 0 < k) (hnd : (d.map Prod.fst).Nodup) :
    ∃ pairs : List (String × ℝ),
      vsearchExec q k d now = some (pairs.map Prod.fst) ∧
      List.Sorted distLE pairs ∧
      (∀ p ∈ pairs, ∃ it : Item, lookupA d p.1 = some it ∧ it.typ = TypeVector ∧
        expiredAt it now = false ∧ it.vecVal.length = q.length ∧
        p.2 = cosineDistance q it.vecVal) ∧
      pairs.length = min k.toNat (eligibleCount q d now) := by
  classical
  set results := (GetAllVectors d now).1.filterMap (fun p =>
    if p.2.length = q.length then some (p.1, cosineDistance q p.2) else none)
    with hres
  have hperm : List.Perm (sortByDist results) results :=
    List.perm_insertionSort distLE results
  have hsort : List.Sorted distLE (sortByDist results) :=
    List.sorted_insertionSort distLE results
  have hlen_res : results.length = eligibleCount q d now := by
    rw [hres, eligibleCount]
    exact length_filterMap_guard (fun p => p.2.length = q.length)
      (fun p => (p.1, cosineDistance q p.2)) (GetAllVectors d now).1
  have hnonneg :
      ¬(if k > ((sortByDist results).length : Int)
          then ((sortByDist results).length : Int) else k) < 0 := by
    split <;> omega
  refine ⟨(sortByDist results).take
    (if k > ((sortByDist results).length : Int)
      then ((sortByDist results).length : Int) else k).toNat, ?_, ?_, ?_, ?_⟩
  · simp only [vsearchExec]
    rw [← hres, if_neg hnonneg]
  · exact List.Pairwise.sublist (List.take_sublist _ _) hsort
  · intro p hp
    have hp1 : p ∈ sortByDist results := List.mem_of_mem_take hp
    have hp2 : p ∈ results := hperm.mem_iff.mp hp1
    rw [hres] at hp2
    obtain ⟨c, hc, heq⟩ := List.mem_filterMap.mp hp2
    by_cases hdim : c.2.length = q.length
    · rw [if_pos hdim] at heq
      obtain rfl := Option.some.injEq .. ▸ heq
      obtain ⟨it, hmem, htyp, hexp, hvec⟩ :=
        (mem_getAllVectors_iff d now c.1 c.2).mp (by simpa using hc)
      exact ⟨it, lookupA_eq_of_mem_nodup d c.1 it hmem hnd, htyp, hexp,
        by rw [hvec]; exact hdim, by rw [hvec]⟩
    · rw [if_neg hdim] at heq
      exact absurd heq (by simp)
  · rw [List.length_take, hperm.length_eq, hlen_res]
    split <;> omega

/-- Witness for C4: the search over an empty keyspace with `K = 1`. -/
theorem C4_vsearch_results_witness :
    ∃ pairs : List (String × ℝ),
      vsearchExec [(1 : ℚ)] 1 [] 0 = some (pairs.map Prod.fst) ∧
      List.Sorted distLE pairs ∧
      (∀ p ∈ pairs, ∃ it : Item, lookupA [] p.1 = some it ∧ it.typ = TypeVector ∧
        expiredAt it 0 = false ∧ it.vecVal.length = [(1 : ℚ)].length ∧
        p.2 = cosineDistance [(1 : ℚ)] it.vecVal) ∧
      pairs.length = min (1 : Int).toNat (eligibleCount [(1 : ℚ)] [] 0) :=
  C4_vsearch_results [(1 : ℚ)] 1 [] 0 (by decide) (by decide)

end JF


